import Mathlib

/-!
Shallow embedding of `scripts/teststub.py`, the stub-generation validation
harness, together with theorems about its classification, tally and
reporting behaviour.

The script drives the external `coctus` tool: for each cached clash id it
runs `coctus next cid` (making the clash current) and then, for each
configured language, `coctus generate-stub lang`.  The captured result of
one such generator run is a `StubResult`; the whole external world is an
`Env` mapping the (current clash, language) pair to that result.  The
script is single-threaded and sets the current clash immediately before
the inner language loop, so passing the clash id explicitly to `stubgen`
is a faithful rendering of the external cursor.
-/

namespace Teststub

/-- exit status and captured output of one external process run
(`subprocess.run(..., capture_output=True)` in the script). -/
structure StubResult where
  returncode : Int
  stdout : String
  stderr : String
deriving DecidableEq, Repr

/-- the external tool: `stubgen cid lang` is the result of
`coctus generate-stub lang` while clash `cid` is current. -/
structure Env where
  stubgen : String → String → StubResult

/-- per-language counters, the `results[lang]` dict of `check_stubgen`. -/
structure Tally where
  n_skipped : Nat
  n_checked : Nat
  n_errors : Nat
deriving DecidableEq, Repr

/-- the all-zero counters each language starts from. -/
def Tally.zero : Tally := ⟨0, 0, 0⟩

/-- Python substring test `needle in hay`. -/
def strContains (hay needle : String) : Bool := decide (needle.data <:+: hay.data)

/-- the `SEPARATOR = "=" * 30` constant of `check_stubgen`. -/
def SEPARATOR : String := "=============================="

/-- the stderr substring that `check_stubgen` matches to classify a failed
generator run as skipped rather than failed. -/
def noGenSentinel : String := "provides no input stub generator"

/-- outcome of the if/elif/elif chain in the language loop of
`check_stubgen` for one (clash, language) pair. -/
inductive Outcome where
  | skipped
  | genError
  | invalid
  | passed
deriving DecidableEq, Repr

/-- classification of one (clash, language) pair, mirroring the branch
structure of the loop body: a non-zero exit whose stderr mentions the
sentinel is skipped; any other non-zero exit is a generator error; a zero
exit whose stub the language checker rejects is invalid; otherwise the
pair passed. -/
def classify (env : Env) (cid lang : String) (checker : String → Bool) : Outcome :=
  let r := env.stubgen cid lang
  if r.returncode != 0 && strContains r.stderr noGenSentinel then .skipped
  else if r.returncode != 0 then .genError
  else if !(checker r.stdout) then .invalid
  else .passed

/-- the counter increments the loop body performs for each outcome:
skipped pairs bump `n_skipped` only; generator errors and invalid stubs
bump `n_checked` and `n_errors`; passing pairs bump `n_checked` only. -/
def applyTally : Outcome → Tally → Tally
  | .skipped, t => { t with n_skipped := t.n_skipped + 1 }
  | .genError, t => { t with n_checked := t.n_checked + 1, n_errors := t.n_errors + 1 }
  | .invalid, t => { t with n_checked := t.n_checked + 1, n_errors := t.n_errors + 1 }
  | .passed, t => { t with n_checked := t.n_checked + 1 }

/-- the lines `check_stubgen` prints for one (clash, language) pair. -/
def pairOut (env : Env) (cid lang : String) (checker : String → Bool) : List String :=
  let r := env.stubgen cid lang
  match classify env cid lang checker with
  | .genError =>
      ["\nStub generator for " ++ lang ++ " returned non-zero for clash " ++ cid,
       SEPARATOR, r.stderr, SEPARATOR, ""]
  | .invalid =>
      ["\nGenerated bad " ++ lang ++ " stub for clash " ++ cid,
       "https://www.codingame.com/contribute/view/" ++ cid]
  | _ => []

/-- one external invocation made by the harness. -/
inductive Call where
  | next (cid : String)
  | generateStub (cid lang : String)
  | validate (lang src : String)
deriving DecidableEq, Repr

/-- external invocations for one (clash, language) pair: the generator is
always run; the language checker runs exactly when the generator exits
zero (the `elif not check_lang_fn(...)` condition is then evaluated). -/
def pairCalls (env : Env) (cid lang : String) : List Call :=
  let r := env.stubgen cid lang
  Call.generateStub cid lang ::
    (if r.returncode == 0 then [Call.validate lang r.stdout] else [])

/-- one pass of the inner `for lang, check_lang_fn in langs_to_check.items()`
loop: each language's tally is updated from that pair's outcome. -/
def puzzleStep (env : Env) (cid : String)
    (pairs : List ((String × (String → Bool)) × Tally)) : List Tally :=
  pairs.map fun p => applyTally (classify env cid p.1.1 p.1.2) p.2

/-- the outer `for cid in clash_ids` loop, threading the tally list. -/
def loop (env : Env) (langs : List (String × (String → Bool))) :
    List String → List Tally → List Tally
  | [], ts => ts
  | cid :: cids, ts => loop env langs cids (puzzleStep env cid (langs.zip ts))

/-- everything `check_stubgen` prints, in print order. -/
def runOut (env : Env) (langs : List (String × (String → Bool)))
    (cids : List String) : List String :=
  cids.flatMap fun cid => langs.flatMap fun p => pairOut env cid p.1 p.2

/-- all external invocations of a run, in invocation order: `coctus next`
per clash, then the per-language generator (and checker) calls. -/
def runCalls (env : Env) (langs : List (String × (String → Bool)))
    (cids : List String) : List Call :=
  cids.flatMap fun cid => Call.next cid :: langs.flatMap fun p => pairCalls env cid p.1

/-- `check_stubgen(clash_ids=..., langs_to_check=...)`: returns the final
per-language tallies (as an association list in `langs_to_check` insertion
order, standing for the Python dict), the printed diagnostics and the
trace of external invocations. -/
def check_stubgen (env : Env) (clash_ids : List String)
    (langs_to_check : List (String × (String → Bool))) :
    List (String × Tally) × List String × List Call :=
  let init := langs_to_check.map fun _ => Tally.zero
  ((langs_to_check.map Prod.fst).zip (loop env langs_to_check clash_ids init),
   runOut env langs_to_check clash_ids,
   runCalls env langs_to_check clash_ids)

/-- the tally fold for a single language over the clash list; the
pointwise content of `loop`. -/
def runLang (env : Env) (lang : String) (checker : String → Bool)
    (cids : List String) (t : Tally) : Tally :=
  cids.foldl (fun acc cid => applyTally (classify env cid lang checker) acc) t

/-- number of clashes with a given outcome for one language. -/
def countOutcome (env : Env) (lang : String) (checker : String → Bool)
    (o : Outcome) : List String → Nat
  | [] => 0
  | cid :: cids =>
    (if classify env cid lang checker = o then 1 else 0) +
      countOutcome env lang checker o cids

/-- number of clashes whose generated stub the language checker accepted. -/
def passedCount (env : Env) (lang : String) (checker : String → Bool)
    (cids : List String) : Nat :=
  countOutcome env lang checker .passed cids

/-- result of one `rustc --emit=metadata -` invocation: its exit status and
the files present in the working directory once it finishes. -/
structure RustcRun where
  returncode : Int
  filesAfter : List String

/-- `check_rust`: runs rustc on the source, deletes the `librust_out.rmeta`
artifact when it exists (`os.path.isfile` then `os.remove`), and reports
validity as exit status zero.  Returns the verdict together with the files
left in the working directory. -/
def check_rust (rustc : String → RustcRun) (src : String) : Bool × List String :=
  let r := rustc src
  let garbage := "librust_out.rmeta"
  let fs := if garbage ∈ r.filesAfter then r.filesAfter.erase garbage else r.filesAfter
  (r.returncode == 0, fs)

/-- the corpus-level failure of the sampling step in `main`. -/
inductive SampleError where
  | insufficientCorpus
deriving DecidableEq, Repr

/-- selection without replacement: each step consumes one number from the
randomness stream and picks that position (mod the remaining population
size), removing the chosen element.  Models the effect of
`random.sample`. -/
def sampleGo (rs : List Nat) (pop : List String) : Nat → List String
  | 0 => []
  | Nat.succ k =>
    match pop with
    | [] => []
    | p :: ps =>
      let i := rs.headD 0 % (p :: ps).length
      (p :: ps).get ⟨i, Nat.mod_lt _ (Nat.succ_pos ps.length)⟩ ::
        sampleGo rs.tail ((p :: ps).eraseIdx i) k

/-- `random.sample(population, k)`: raises when `k` exceeds the population
size, otherwise returns `k` elements chosen without replacement. -/
def randomSample (rs : List Nat) (pop : List String) (k : Nat) :
    Except SampleError (List String) :=
  if k ≤ pop.length then .ok (sampleGo rs pop k) else .error .insufficientCorpus

/-- `main(n)`: takes the enumerated corpus (the stems of the cached clash
files), optionally samples `n` of them — propagating the sampling failure,
in which case `check_stubgen` is never reached — and otherwise runs
`check_stubgen` on the selected ids. -/
def main (env : Env) (corpus : List String)
    (langs : List (String × (String → Bool))) (n : Option Nat) (rs : List Nat) :
    Except SampleError (List (String × Tally) × List String × List Call) :=
  match n with
  | none => .ok (check_stubgen env corpus langs)
  | some k =>
    match randomSample rs corpus k with
    | .error e => .error e
    | .ok ids => .ok (check_stubgen env ids langs)

/-- predicate selecting the generator invocations from a call trace. -/
def isGenCall : Call → Bool
  | .generateStub _ _ => true
  | _ => false

/-! ### basic lemmas about the per-pair classification -/

theorem strContains_iff (hay needle : String) :
    strContains hay needle = true ↔ needle.data <:+: hay.data := by
  simp [strContains]

theorem classify_eq_skipped (env : Env) (cid lang : String) (checker : String → Bool)
    (h1 : (env.stubgen cid lang).returncode ≠ 0)
    (h2 : strContains (env.stubgen cid lang).stderr noGenSentinel = true) :
    classify env cid lang checker = .skipped := by
  have hb : ((env.stubgen cid lang).returncode != 0) = true := bne_iff_ne.mpr h1
  simp [classify, hb, h2]

theorem classify_eq_genError (env : Env) (cid lang : String) (checker : String → Bool)
    (h1 : (env.stubgen cid lang).returncode ≠ 0)
    (h2 : strContains (env.stubgen cid lang).stderr noGenSentinel = false) :
    classify env cid lang checker = .genError := by
  have hb : ((env.stubgen cid lang).returncode != 0) = true := bne_iff_ne.mpr h1
  simp [classify, hb, h2]

theorem classify_eq_invalid (env : Env) (cid lang : String) (checker : String → Bool)
    (h1 : (env.stubgen cid lang).returncode = 0)
    (h2 : checker (env.stubgen cid lang).stdout = false) :
    classify env cid lang checker = .invalid := by
  simp [classify, h1, h2]

theorem classify_eq_passed (env : Env) (cid lang : String) (checker : String → Bool)
    (h1 : (env.stubgen cid lang).returncode = 0)
    (h2 : checker (env.stubgen cid lang).stdout = true) :
    classify env cid lang checker = .passed := by
  simp [classify, h1, h2]

theorem pairOut_of_skipped (env : Env) (cid lang : String) (checker : String → Bool)
    (h : classify env cid lang checker = .skipped) :
    pairOut env cid lang checker = [] := by
  simp [pairOut, h]

theorem pairOut_of_passed (env : Env) (cid lang : String) (checker : String → Bool)
    (h : classify env cid lang checker = .passed) :
    pairOut env cid lang checker = [] := by
  simp [pairOut, h]

theorem pairOut_of_genError (env : Env) (cid lang : String) (checker : String → Bool)
    (h : classify env cid lang checker = .genError) :
    pairOut env cid lang checker =
      ["\nStub generator for " ++ lang ++ " returned non-zero for clash " ++ cid,
       SEPARATOR, (env.stubgen cid lang).stderr, SEPARATOR, ""] := by
  simp [pairOut, h]

theorem pairOut_of_invalid (env : Env) (cid lang : String) (checker : String → Bool)
    (h : classify env cid lang checker = .invalid) :
    pairOut env cid lang checker =
      ["\nGenerated bad " ++ lang ++ " stub for clash " ++ cid,
       "https://www.codingame.com/contribute/view/" ++ cid] := by
  simp [pairOut, h]

/-! ### the batch loop computes an independent fold per language -/

theorem zip_self_map {α γ : Type*} (l : List α) (g : α → γ) :
    l.zip (l.map g) = l.map fun a => (a, g a) := by
  induction l with
  | nil => rfl
  | cons x xs ih => simp [ih]

theorem zip_map_zip {α β γ : Type*} :
    ∀ (a : List α) (b : List β) (g : α × β → γ), a.length = b.length →
      a.zip ((a.zip b).map g) = (a.zip b).map fun p => (p.1, g p) := by
  intro a
  induction a with
  | nil => intro b g _; rfl
  | cons x xs ih =>
    intro b g hb
    cases b with
    | nil => simp at hb
    | cons y ys =>
      have := ih ys g (by simpa using hb)
      simp [List.zip_cons_cons, this]

theorem runLang_cons (env : Env) (lang : String) (checker : String → Bool)
    (cid : String) (cids : List String) (t : Tally) :
    runLang env lang checker (cid :: cids) t =
      runLang env lang checker cids (applyTally (classify env cid lang checker) t) := rfl

theorem loop_eq (env : Env) (langs : List (String × (String → Bool))) :
    ∀ (cids : List String) (ts : List Tally), ts.length = langs.length →
      loop env langs cids ts =
        (langs.zip ts).map fun p => runLang env p.1.1 p.1.2 cids p.2 := by
  intro cids
  induction cids with
  | nil =>
    intro ts hlen
    have h2 : ((langs.zip ts).map fun p => runLang env p.1.1 p.1.2 [] p.2)
        = (langs.zip ts).map Prod.snd := by
      apply List.map_congr_left; intro p _; rfl
    rw [loop, h2, List.map_snd_zip]
    omega
  | cons cid cids ih =>
    intro ts hlen
    rw [loop, ih _ (by simp [puzzleStep, hlen])]
    show ((langs.zip ((langs.zip ts).map _)).map _) = _
    rw [zip_map_zip _ _ _ hlen.symm, List.map_map]
    apply List.map_congr_left
    intro p _
    rfl

theorem check_stubgen_fst (env : Env) (cids : List String)
    (langs : List (String × (String → Bool))) :
    (check_stubgen env cids langs).1 =
      langs.map fun p => (p.1, runLang env p.1 p.2 cids Tally.zero) := by
  show (langs.map Prod.fst).zip (loop env langs cids (langs.map fun _ => Tally.zero)) = _
  rw [loop_eq env langs cids _ (by simp), zip_self_map, List.map_map, List.zip_map']
  apply List.map_congr_left
  intro p _
  rfl

/-! ### counting outcomes -/

theorem runLang_eq_counts (env : Env) (lang : String) (checker : String → Bool) :
    ∀ (cids : List String) (t : Tally),
      runLang env lang checker cids t =
        { n_skipped := t.n_skipped + countOutcome env lang checker .skipped cids,
          n_checked := t.n_checked + (countOutcome env lang checker .genError cids
            + countOutcome env lang checker .invalid cids
            + countOutcome env lang checker .passed cids),
          n_errors := t.n_errors + (countOutcome env lang checker .genError cids
            + countOutcome env lang checker .invalid cids) } := by
  intro cids
  induction cids with
  | nil => intro t; cases t; simp [runLang, countOutcome]
  | cons cid cids ih =>
    intro t
    obtain ⟨a, b, c⟩ := t
    rw [runLang_cons, ih]
    rcases h : classify env cid lang checker with _ | _ | _ | _ <;>
      simp [applyTally, countOutcome, h] <;> omega

theorem countOutcome_total (env : Env) (lang : String) (checker : String → Bool) :
    ∀ cids : List String,
      countOutcome env lang checker .skipped cids
        + countOutcome env lang checker .genError cids
        + countOutcome env lang checker .invalid cids
        + countOutcome env lang checker .passed cids = cids.length := by
  intro cids
  induction cids with
  | nil => simp [countOutcome]
  | cons cid cids ih =>
    rcases h : classify env cid lang checker with _ | _ | _ | _ <;>
      simp [countOutcome, h] <;> omega

theorem countOutcome_of_all (env : Env) (lang : String) (checker : String → Bool)
    (o₀ : Outcome) :
    ∀ cids : List String, (∀ cid ∈ cids, classify env cid lang checker = o₀) →
      ∀ o : Outcome, countOutcome env lang checker o cids
        = if o = o₀ then cids.length else 0 := by
  intro cids
  induction cids with
  | nil => intro _ o; simp [countOutcome]
  | cons cid cids ih =>
    intro h o
    have h1 : classify env cid lang checker = o₀ := h cid (by simp)
    have h2 := ih (fun c hc => h c (by simp [hc])) o
    by_cases ho : o = o₀
    · subst ho
      simp [countOutcome, h1, h2]
      omega
    · have hne : ¬ (classify env cid lang checker = o) := by
        rw [h1]; exact fun e => ho e.symm
      simp [countOutcome, h2, hne, ho]

/-! ### projections out of the report, and membership in the output -/

theorem check_stubgen_fst_get (env : Env) (cids : List String)
    (langs : List (String × (String → Bool))) (i : Nat) (hi : i < langs.length) :
    (check_stubgen env cids langs).1[i]? =
      some ((langs.get ⟨i, hi⟩).1,
        runLang env (langs.get ⟨i, hi⟩).1 (langs.get ⟨i, hi⟩).2 cids Tally.zero) := by
  rw [check_stubgen_fst]
  rw [List.getElem?_eq_getElem (by simpa using hi)]
  simp [List.getElem_map, List.get_eq_getElem]

theorem pairOut_subset_runOut (env : Env) (langs : List (String × (String → Bool)))
    (cids : List String) (cid lang : String) (checker : String → Bool)
    (hc : cid ∈ cids) (hl : (lang, checker) ∈ langs) :
    ∀ x ∈ pairOut env cid lang checker, x ∈ runOut env langs cids := by
  intro x hx
  unfold runOut
  rw [List.mem_flatMap]
  refine ⟨cid, hc, ?_⟩
  rw [List.mem_flatMap]
  exact ⟨(lang, checker), hl, hx⟩

theorem strContains_suffix (x c : String) : strContains (x ++ c) c = true := by
  rw [strContains_iff, String.data_append]
  exact (List.suffix_append _ _).isInfix

theorem strContains_mid (a b c : String) : strContains (a ++ b ++ c) b = true := by
  rw [strContains_iff, String.data_append, String.data_append]
  exact List.infix_append _ _ _

theorem strContains_append_left (x c s : String) (h : strContains x s = true) :
    strContains (x ++ c) s = true := by
  rw [strContains_iff] at h ⊢
  rw [String.data_append]
  exact h.trans (List.prefix_append _ _).isInfix

theorem flatMap_congr {α β : Type*} (l : List α) (f g : α → List β)
    (h : ∀ a ∈ l, f a = g a) : l.flatMap f = l.flatMap g := by
  induction l with
  | nil => rfl
  | cons x xs ih =>
    simp [List.flatMap_cons, h x (by simp), ih fun a ha => h a (by simp [ha])]

theorem flatMap_nil_of {α β : Type*} (l : List α) (f : α → List β)
    (h : ∀ a ∈ l, f a = []) : l.flatMap f = [] := by
  induction l with
  | nil => rfl
  | cons x xs ih =>
    simp [List.flatMap_cons, h x (by simp), ih fun a ha => h a (by simp [ha])]

theorem flatMap_single {α β : Type*} (l : List α) (f : α → β) :
    (l.flatMap fun a => [f a]) = l.map f := by
  induction l with
  | nil => rfl
  | cons x xs ih => simp [List.flatMap_cons, ih]

theorem pairCalls_filter (env : Env) (cid lang : String) :
    (pairCalls env cid lang).filter isGenCall = [Call.generateStub cid lang] := by
  unfold pairCalls
  cases h : (env.stubgen cid lang).returncode == 0 <;> simp [isGenCall, h]

/-! ### congruence in the environment -/

theorem classify_congr (env1 env2 : Env) (cid lang : String) (checker : String → Bool)
    (h : env1.stubgen cid lang = env2.stubgen cid lang) :
    classify env1 cid lang checker = classify env2 cid lang checker := by
  simp only [classify, h]

theorem pairOut_congr (env1 env2 : Env) (cid lang : String) (checker : String → Bool)
    (h : env1.stubgen cid lang = env2.stubgen cid lang) :
    pairOut env1 cid lang checker = pairOut env2 cid lang checker := by
  unfold pairOut
  rw [classify_congr env1 env2 cid lang checker h, h]

theorem pairCalls_congr (env1 env2 : Env) (cid lang : String)
    (h : env1.stubgen cid lang = env2.stubgen cid lang) :
    pairCalls env1 cid lang = pairCalls env2 cid lang := by
  simp only [pairCalls, h]

theorem runLang_congr (env1 env2 : Env) (lang : String) (checker : String → Bool) :
    ∀ (cids : List String) (t : Tally),
      (∀ cid ∈ cids, env1.stubgen cid lang = env2.stubgen cid lang) →
      runLang env1 lang checker cids t = runLang env2 lang checker cids t := by
  intro cids
  induction cids with
  | nil => intro t _; rfl
  | cons cid cids ih =>
    intro t h
    rw [runLang_cons, runLang_cons,
      classify_congr env1 env2 cid lang checker (h cid (by simp)),
      ih _ fun c hc => h c (by simp [hc])]

/-! ### sampling without replacement -/

theorem sampleGo_length : ∀ (k : Nat) (rs : List Nat) (pop : List String),
    k ≤ pop.length → (sampleGo rs pop k).length = k := by
  intro k
  induction k with
  | zero => intro rs pop _; rfl
  | succ k ih =>
    intro rs pop hk
    cases pop with
    | nil => simp at hk
    | cons p ps =>
      simp only [sampleGo, List.length_cons]
      rw [ih rs.tail _ ?hle]
      case hle =>
        rw [List.length_eraseIdx]
        simp only [List.length_cons] at hk ⊢
        split <;> omega

theorem sampleGo_subset : ∀ (k : Nat) (rs : List Nat) (pop : List String),
    ∀ x ∈ sampleGo rs pop k, x ∈ pop := by
  intro k
  induction k with
  | zero => intro rs pop x hx; simp [sampleGo] at hx
  | succ k ih =>
    intro rs pop x hx
    cases pop with
    | nil => simp [sampleGo] at hx
    | cons p ps =>
      simp only [sampleGo] at hx
      rcases List.mem_cons.mp hx with h | h
      · rw [h]; exact List.get_mem _ _ _
      · exact (List.eraseIdx_sublist _ _).subset (ih _ _ x h)

theorem sample_head_nodup (pop : List String) (hnd : pop.Nodup) (i : Nat)
    (hi : i < pop.length) (rest : List String)
    (hsub : ∀ x ∈ rest, x ∈ pop.eraseIdx i) (hrest : rest.Nodup) :
    (pop.get ⟨i, hi⟩ :: rest).Nodup := by
  refine List.nodup_cons.mpr ⟨?_, hrest⟩
  intro hmem
  have h2 := hsub _ hmem
  rw [List.mem_eraseIdx_iff_getElem] at h2
  obtain ⟨j, hj, hji, hgeq⟩ := h2
  have hfin : (⟨j, hj⟩ : Fin pop.length) = ⟨i, hi⟩ :=
    hnd.get_inj_iff.mp (by simpa [List.get_eq_getElem] using hgeq)
  exact hji (congrArg Fin.val hfin)

theorem sampleGo_nodup : ∀ (k : Nat) (rs : List Nat) (pop : List String),
    pop.Nodup → (sampleGo rs pop k).Nodup := by
  intro k
  induction k with
  | zero => intro rs pop _; simp [sampleGo]
  | succ k ih =>
    intro rs pop hnd
    cases pop with
    | nil => simp [sampleGo]
    | cons p ps =>
      simp only [sampleGo]
      exact sample_head_nodup _ hnd _ _ _
        (fun x hx => sampleGo_subset _ _ _ x hx)
        (ih _ _ ((List.eraseIdx_sublist _ _).nodup hnd))

/-! ### concrete environments used as test inputs -/

/-- a generator that always fails with the stderr text the spec quotes as
the sentinel. -/
def envC1 : Env := ⟨fun _ _ => ⟨1, "", "no input stub generator available"⟩⟩

/-- a generator that always fails with a stderr containing the substring
the code actually matches. -/
def envSkip : Env :=
  ⟨fun _ _ => ⟨1, "", "the language x provides no input stub generator"⟩⟩

/-- a generator that always succeeds and emits a fixed stub. -/
def envW : Env := ⟨fun _ _ => ⟨0, "stub", ""⟩⟩

/-- a generator that always succeeds and emits the text SRCTEXT. -/
def envC3 : Env := ⟨fun _ _ => ⟨0, "SRCTEXT", ""⟩⟩

/-- a generator that always fails with an unrelated stderr. -/
def envErr : Env := ⟨fun _ _ => ⟨1, "", "boom"⟩⟩

/-- a rustc stand-in that fails and leaves the metadata artifact behind. -/
def rustcW : String → RustcRun :=
  fun _ => ⟨1, ["librust_out.rmeta", "main.rs"]⟩

/-! ### claims -/

/-- C1, counterexample: with a failing generator whose stderr is exactly the
sentinel the claim quotes ("no input stub generator available"), the run does
NOT classify the pair as Skipped: it counts it as checked and errored, because
the code matches the different substring "provides no input stub generator". -/
theorem skip_sentinel_counterexample :
    (envC1.stubgen "p1" "x").returncode ≠ 0 ∧
    strContains (envC1.stubgen "p1" "x").stderr "no input stub generator available" = true ∧
    (check_stubgen envC1 ["p1"] [("x", fun _ => true)]).1 =
      [("x", { n_skipped := 0, n_checked := 1, n_errors := 1 })] := by
  refine ⟨by decide, by decide, by decide⟩

/-- C1 (amended): whenever stub generation fails (non-zero exit) and stderr
contains the substring "provides no input stub generator", the pair is
classified Skipped: the final tally for that language counts every such
clash as skipped with checked = errors = 0, and no diagnostic is printed;
a non-zero exit without that substring is classified Failed, incrementing
checked and errors. -/
theorem skip_classification (env : Env) (cids : List String) (lang : String)
    (checker : String → Bool)
    (h : ∀ cid ∈ cids, (env.stubgen cid lang).returncode ≠ 0 ∧
        strContains (env.stubgen cid lang).stderr noGenSentinel = true) :
    (check_stubgen env cids [(lang, checker)]).1 =
      [(lang, { n_skipped := cids.length, n_checked := 0, n_errors := 0 })] ∧
    (check_stubgen env cids [(lang, checker)]).2.1 = [] ∧
    (∀ (cid : String) (r0 : Tally), (env.stubgen cid lang).returncode ≠ 0 →
      strContains (env.stubgen cid lang).stderr noGenSentinel = false →
      applyTally (classify env cid lang checker) r0
        = { r0 with n_checked := r0.n_checked + 1, n_errors := r0.n_errors + 1 }) := by
  have hcl : ∀ cid ∈ cids, classify env cid lang checker = .skipped := fun cid hc =>
    classify_eq_skipped env cid lang checker (h cid hc).1 (h cid hc).2
  refine ⟨?_, ?_, ?_⟩
  · rw [check_stubgen_fst]
    have hrl : runLang env lang checker cids Tally.zero =
        { n_skipped := cids.length, n_checked := 0, n_errors := 0 } := by
      rw [runLang_eq_counts]
      have hs := countOutcome_of_all env lang checker .skipped cids hcl
      simp [Tally.zero, hs Outcome.skipped, hs Outcome.genError, hs Outcome.invalid,
        hs Outcome.passed]
    simp [hrl]
  · show runOut env [(lang, checker)] cids = []
    unfold runOut
    apply flatMap_nil_of
    intro cid hc
    simp [List.flatMap_cons, pairOut_of_skipped env cid lang checker (hcl cid hc)]
  · intro cid r0 h1 h2
    rw [classify_eq_genError env cid lang checker h1 h2]
    rfl

/-- witness for the amended C1 theorem at a concrete environment. -/
theorem skip_classification_witness :
    (check_stubgen envSkip ["p1", "p2"] [("x", fun _ => true)]).1 =
      [("x", { n_skipped := 2, n_checked := 0, n_errors := 0 })] :=
  (skip_classification envSkip ["p1", "p2"] "x" (fun _ => true) (by decide)).1

/-- C2: for every configured language, the final tally satisfies
checked = passed + errors (so errors ≤ checked) and skipped + checked equals
the number of clash ids processed. -/
theorem tally_invariant (env : Env) (cids : List String)
    (langs : List (String × (String → Bool))) (i : Nat) (hi : i < langs.length) :
    ∃ t : Tally,
      (check_stubgen env cids langs).1[i]? = some ((langs.get ⟨i, hi⟩).1, t) ∧
      t.n_checked
        = passedCount env (langs.get ⟨i, hi⟩).1 (langs.get ⟨i, hi⟩).2 cids + t.n_errors ∧
      t.n_errors ≤ t.n_checked ∧
      t.n_skipped + t.n_checked = cids.length := by
  have hrt := runLang_eq_counts env (langs.get ⟨i, hi⟩).1 (langs.get ⟨i, hi⟩).2 cids Tally.zero
  have htot := countOutcome_total env (langs.get ⟨i, hi⟩).1 (langs.get ⟨i, hi⟩).2 cids
  simp only [List.get_eq_getElem] at hrt htot
  refine ⟨runLang env (langs.get ⟨i, hi⟩).1 (langs.get ⟨i, hi⟩).2 cids Tally.zero,
    check_stubgen_fst_get env cids langs i hi, ?_, ?_, ?_⟩ <;>
    simp only [List.get_eq_getElem] <;>
    rw [hrt] <;> simp [Tally.zero, passedCount] <;> omega

/-- witness for the C2 invariant at a concrete run. -/
theorem tally_invariant_witness :
    ∃ t : Tally,
      (check_stubgen envW ["p1"] [("c", fun _ => true)]).1[0]? = some ("c", t) ∧
      t.n_checked = passedCount envW "c" (fun _ => true) ["p1"] + t.n_errors ∧
      t.n_errors ≤ t.n_checked ∧
      t.n_skipped + t.n_checked = (["p1"] : List String).length :=
  tally_invariant envW ["p1"] [("c", fun _ => true)] 0 (by decide)

/-- C3, counterexample: a run where generation succeeds and the checker
rejects prints exactly the header line and the puzzle link; no printed line
contains the generated source text (here SRCTEXT), contrary to the claim
that the diagnostic contains the generated source itself. -/
theorem invalid_stub_source_counterexample :
    (envC3.stubgen "p1" "c").returncode = 0 ∧
    (envC3.stubgen "p1" "c").stdout = "SRCTEXT" ∧
    (check_stubgen envC3 ["p1"] [("c", fun _ => false)]).2.1 =
      ["\nGenerated bad c stub for clash p1",
       "https://www.codingame.com/contribute/view/p1"] ∧
    ((check_stubgen envC3 ["p1"] [("c", fun _ => false)]).2.1.all
      fun line => !(strContains line "SRCTEXT")) = true := by
  refine ⟨rfl, rfl, by decide, by decide⟩

/-- C3 (amended): for every (puzzle, language) pair where generation succeeds
but the validity check reports invalid, the pair increments both checked and
errors, and the run output contains a diagnostic line mentioning the puzzle
id and the language plus a browsable link to the puzzle (the generated
source text is not part of the diagnostic). -/
theorem invalid_stub_diag (env : Env) (cids : List String)
    (langs : List (String × (String → Bool))) (cid lang : String)
    (checker : String → Bool) (hc : cid ∈ cids) (hl : (lang, checker) ∈ langs)
    (hrc : (env.stubgen cid lang).returncode = 0)
    (hbad : checker (env.stubgen cid lang).stdout = false) :
    (∀ t : Tally, applyTally (classify env cid lang checker) t =
        { t with n_checked := t.n_checked + 1, n_errors := t.n_errors + 1 }) ∧
    ("\nGenerated bad " ++ lang ++ " stub for clash " ++ cid)
        ∈ (check_stubgen env cids langs).2.1 ∧
    strContains ("\nGenerated bad " ++ lang ++ " stub for clash " ++ cid) cid = true ∧
    strContains ("\nGenerated bad " ++ lang ++ " stub for clash " ++ cid) lang = true ∧
    ("https://www.codingame.com/contribute/view/" ++ cid)
        ∈ (check_stubgen env cids langs).2.1 := by
  have hcl := classify_eq_invalid env cid lang checker hrc hbad
  have hout := pairOut_of_invalid env cid lang checker hcl
  have hsub := pairOut_subset_runOut env langs cids cid lang checker hc hl
  refine ⟨?_, ?_, ?_, ?_, ?_⟩
  · intro t; rw [hcl]; rfl
  · exact hsub _ (by rw [hout]; simp)
  · exact strContains_suffix _ _
  · exact strContains_append_left _ _ _ (strContains_mid _ _ _)
  · exact hsub _ (by rw [hout]; simp)

/-- witness for the amended C3 theorem at a concrete run. -/
theorem invalid_stub_diag_witness :
    ("\nGenerated bad " ++ "c" ++ " stub for clash " ++ "p1")
      ∈ (check_stubgen envC3 ["p1"] [("c", fun _ => false)]).2.1 :=
  (invalid_stub_diag envC3 ["p1"] [("c", fun _ => false)] "p1" "c" (fun _ => false)
    (by simp) (by simp) rfl rfl).2.1

/-- C4: for every (puzzle, language) pair where generation fails for a
reason other than the no-generator sentinel, the pair increments both
checked and errors, and the run output contains a diagnostic line
mentioning the puzzle id and the language, together with the generator
stderr itself as a printed line. -/
theorem gen_error_diag (env : Env) (cids : List String)
    (langs : List (String × (String → Bool))) (cid lang : String)
    (checker : String → Bool) (hc : cid ∈ cids) (hl : (lang, checker) ∈ langs)
    (hrc : (env.stubgen cid lang).returncode ≠ 0)
    (hno : strContains (env.stubgen cid lang).stderr noGenSentinel = false) :
    (∀ t : Tally, applyTally (classify env cid lang checker) t =
        { t with n_checked := t.n_checked + 1, n_errors := t.n_errors + 1 }) ∧
    ("\nStub generator for " ++ lang ++ " returned non-zero for clash " ++ cid)
        ∈ (check_stubgen env cids langs).2.1 ∧
    strContains ("\nStub generator for " ++ lang ++ " returned non-zero for clash " ++ cid)
        cid = true ∧
    strContains ("\nStub generator for " ++ lang ++ " returned non-zero for clash " ++ cid)
        lang = true ∧
    (env.stubgen cid lang).stderr ∈ (check_stubgen env cids langs).2.1 := by
  have hcl := classify_eq_genError env cid lang checker hrc hno
  have hout := pairOut_of_genError env cid lang checker hcl
  have hsub := pairOut_subset_runOut env langs cids cid lang checker hc hl
  refine ⟨?_, ?_, ?_, ?_, ?_⟩
  · intro t; rw [hcl]; rfl
  · exact hsub _ (by rw [hout]; simp)
  · exact strContains_suffix _ _
  · exact strContains_append_left _ _ _ (strContains_mid _ _ _)
  · exact hsub _ (by rw [hout]; simp)

/-- witness for the C4 theorem at a concrete run. -/
theorem gen_error_diag_witness :
    (envErr.stubgen "p1" "c").stderr
      ∈ (check_stubgen envErr ["p1"] [("c", fun _ => true)]).2.1 :=
  (gen_error_diag envErr ["p1"] [("c", fun _ => true)] "p1" "c" (fun _ => true)
    (by simp) (by simp) (by decide) (by decide)).2.2.2.2

/-- C5: if the requested sample size k is at most the corpus size, sampling
returns exactly k distinct identifiers drawn from the corpus and the run
proceeds on them; if k exceeds the corpus size, main fails with
InsufficientCorpus before any processing. -/
theorem sampling_contract (env : Env) (corpus : List String)
    (langs : List (String × (String → Bool))) (rs : List Nat) (k : Nat)
    (hnd : corpus.Nodup) :
    (k ≤ corpus.length →
      ∃ ids : List String,
        randomSample rs corpus k = .ok ids ∧
        main env corpus langs (some k) rs = .ok (check_stubgen env ids langs) ∧
        ids.length = k ∧ ids.Nodup ∧ ∀ x ∈ ids, x ∈ corpus) ∧
    (corpus.length < k →
      main env corpus langs (some k) rs = .error .insufficientCorpus) := by
  constructor
  · intro hk
    refine ⟨sampleGo rs corpus k, ?_, ?_, sampleGo_length k rs corpus hk,
      sampleGo_nodup k rs corpus hnd, sampleGo_subset k rs corpus⟩
    · simp [randomSample, hk]
    · simp [main, randomSample, hk]
  · intro hk
    have hnk : ¬ k ≤ corpus.length := by omega
    simp [main, randomSample, hnk]

/-- witness for the C5 sampling theorem at a concrete corpus. -/
theorem sampling_contract_witness :
    ∃ ids : List String,
      randomSample [5, 3] ["a", "b", "c"] 2 = .ok ids ∧
      main envW ["a", "b", "c"] [] (some 2) [5, 3] = .ok (check_stubgen envW ids []) ∧
      ids.length = 2 ∧ ids.Nodup ∧ ∀ x ∈ ids, x ∈ ["a", "b", "c"] :=
  (sampling_contract envW ["a", "b", "c"] [] [5, 3] 2 (by decide)).1 (by decide)

/-- C6: for every environment, clash list and language list, check_stubgen
runs to completion with a report naming exactly the configured languages in
order, and the trace of generator invocations is exactly the full
clash × language cross product. -/
theorem batch_totality (env : Env) (cids : List String)
    (langs : List (String × (String → Bool))) :
    (check_stubgen env cids langs).1.map Prod.fst = langs.map Prod.fst ∧
    (check_stubgen env cids langs).2.2.filter isGenCall =
      cids.flatMap fun cid => langs.map fun p => Call.generateStub cid p.1 := by
  constructor
  · rw [check_stubgen_fst, List.map_map]
    apply List.map_congr_left
    intro p _
    rfl
  · show (runCalls env langs cids).filter isGenCall = _
    unfold runCalls
    rw [List.filter_flatMap]
    apply flatMap_congr
    intro cid _
    rw [List.filter_cons]
    simp only [isGenCall, Bool.false_eq_true, if_false, List.filter_flatMap]
    rw [flatMap_congr _ _ _ fun p _ => pairCalls_filter env cid p.1, flatMap_single]

/-- C7: if the generator succeeds for every clash and the language checker
accepts every generated stub, that language's final tally is
checked = number of clashes with skipped = errors = 0. -/
theorem all_valid_tally (env : Env) (cids : List String)
    (langs : List (String × (String → Bool))) (i : Nat) (hi : i < langs.length)
    (h : ∀ cid ∈ cids,
      (env.stubgen cid (langs.get ⟨i, hi⟩).1).returncode = 0 ∧
      (langs.get ⟨i, hi⟩).2 (env.stubgen cid (langs.get ⟨i, hi⟩).1).stdout = true) :
    (check_stubgen env cids langs).1[i]? =
      some ((langs.get ⟨i, hi⟩).1,
        { n_skipped := 0, n_checked := cids.length, n_errors := 0 }) := by
  have hcl : ∀ cid ∈ cids,
      classify env cid (langs.get ⟨i, hi⟩).1 (langs.get ⟨i, hi⟩).2 = .passed :=
    fun cid hc => classify_eq_passed _ _ _ _ (h cid hc).1 (h cid hc).2
  rw [check_stubgen_fst_get env cids langs i hi]
  have hs := countOutcome_of_all env (langs.get ⟨i, hi⟩).1 (langs.get ⟨i, hi⟩).2 .passed cids hcl
  simp only [List.get_eq_getElem] at hs
  simp only [Option.some.injEq, Prod.mk.injEq, true_and]
  rw [runLang_eq_counts]
  simp [Tally.zero, hs Outcome.skipped, hs Outcome.genError, hs Outcome.invalid,
    hs Outcome.passed]

/-- witness for the C7 theorem: the concrete scenario of the spec, corpus
p1, p2 with language c and an always-valid stub. -/
theorem all_valid_tally_witness :
    (check_stubgen envW ["p1", "p2"] [("c", fun _ => true)]).1[0]? =
      some ("c", { n_skipped := 0, n_checked := 2, n_errors := 0 }) :=
  all_valid_tally envW ["p1", "p2"] [("c", fun _ => true)] 0 (by decide)
    (fun _ _ => ⟨rfl, rfl⟩)

/-- C8: after check_rust returns, the librust_out.rmeta artifact is not
among the files left in the working directory, whether or not the
compilation succeeded, and every other file is exactly as rustc left it. -/
theorem rust_cleanup (rustc : String → RustcRun) (src : String)
    (hnd : (rustc src).filesAfter.Nodup) :
    "librust_out.rmeta" ∉ (check_rust rustc src).2 ∧
    ∀ f : String, f ≠ "librust_out.rmeta" →
      (f ∈ (check_rust rustc src).2 ↔ f ∈ (rustc src).filesAfter) := by
  have h2 : (check_rust rustc src).2
      = if "librust_out.rmeta" ∈ (rustc src).filesAfter
        then (rustc src).filesAfter.erase "librust_out.rmeta"
        else (rustc src).filesAfter := rfl
  rw [h2]
  constructor
  · intro hmem
    by_cases hg : "librust_out.rmeta" ∈ (rustc src).filesAfter
    · rw [if_pos hg] at hmem
      exact (hnd.mem_erase_iff.mp hmem).1 rfl
    · rw [if_neg hg] at hmem
      exact hg hmem
  · intro f hf
    by_cases hg : "librust_out.rmeta" ∈ (rustc src).filesAfter
    · rw [if_pos hg]
      exact List.mem_erase_of_ne hf
    · rw [if_neg hg]

/-- witness for the C8 theorem: a failing rustc run that left the artifact
behind; after the check the artifact is gone. -/
theorem rust_cleanup_witness :
    "librust_out.rmeta" ∉ (check_rust rustcW "fn x()").2 :=
  (rust_cleanup rustcW "fn x()" (by decide)).1

/-- C9: two runs over the same clash list and languages whose external
generator responses agree on every queried pair produce identical reports,
output and call traces. -/
theorem deterministic_tallies (env1 env2 : Env) (cids : List String)
    (langs : List (String × (String → Bool)))
    (h : ∀ cid ∈ cids, ∀ p ∈ langs, env1.stubgen cid p.1 = env2.stubgen cid p.1) :
    check_stubgen env1 cids langs = check_stubgen env2 cids langs := by
  refine Prod.ext ?_ (Prod.ext ?_ ?_)
  · rw [check_stubgen_fst, check_stubgen_fst]
    apply List.map_congr_left
    intro p hp
    exact congrArg (Prod.mk p.1)
      (runLang_congr env1 env2 p.1 p.2 cids Tally.zero fun cid hc => h cid hc p hp)
  · show runOut env1 langs cids = runOut env2 langs cids
    unfold runOut
    apply flatMap_congr
    intro cid hc
    apply flatMap_congr
    intro p hp
    exact pairOut_congr env1 env2 cid p.1 p.2 (h cid hc p hp)
  · show runCalls env1 langs cids = runCalls env2 langs cids
    unfold runCalls
    apply flatMap_congr
    intro cid hc
    exact congrArg (fun l => Call.next cid :: l)
      (flatMap_congr _ _ _ fun p hp => pairCalls_congr env1 env2 cid p.1 (h cid hc p hp))

/-- witness for the C9 theorem at a concrete pair of (pointwise equal)
environments. -/
theorem deterministic_tallies_witness :
    check_stubgen envW ["p1"] [("c", fun _ => true)] =
      check_stubgen envW ["p1"] [("c", fun _ => true)] :=
  deterministic_tallies envW envW ["p1"] [("c", fun _ => true)]
    (fun _ _ _ _ => rfl)

/-- C10: on an empty clash list, check_stubgen maps every configured
language to the all-zero tally, prints nothing, and performs no external
invocation at all. -/
theorem empty_corpus (env : Env) (langs : List (String × (String → Bool))) :
    check_stubgen env [] langs = (langs.map fun p => (p.1, Tally.zero), [], []) := by
  refine Prod.ext ?_ (Prod.ext ?_ ?_)
  · show (langs.map Prod.fst).zip (loop env langs [] (langs.map fun _ => Tally.zero)) = _
    rw [loop, List.zip_map']
  · rfl
  · rfl

end Teststub
